import Mathlib

/-!
# Verification of the tui library (src/tui.h)

A shallow embedding of the tui terminal-ui library.  C `short`/`int` values
are modelled as `Int`, array indices as `Nat`, strings as `List Char`,
fallible or possibly-undefined computations as `Option`.  Loops with
data-dependent index jumps are embedded as fuel-indexed recursions; fuel
exhaustion yields `none` and is never claimed to correspond to any C result.
-/

namespace Tui

/-- C `#define COLOR_NONE -1` (src/tui.h). -/
def COLOR_NONE : Int := -1

/-- `tui_color_t`: foreground and background color (C `short` fields). -/
structure TuiColor where
  fg : Int
  bg : Int
  deriving Repr, DecidableEq

/-- `TUI_COLOR_NONE = { COLOR_NONE, COLOR_NONE }`. -/
def TUI_COLOR_NONE : TuiColor := ⟨COLOR_NONE, COLOR_NONE⟩

/-- `tui_ncurses_color_get`: `(color.fg + 1) * 9 + (color.bg + 1)`. -/
def tui_ncurses_color_get (color : TuiColor) : Int :=
  (color.fg + 1) * 9 + (color.bg + 1)

/-- `tui_color_inherit last_color color`: per-channel substitution of the
`COLOR_NONE` channels of `color` by the channels of `last_color`. -/
def tui_color_inherit (last_color color : TuiColor) : TuiColor :=
  { fg := if color.fg = COLOR_NONE then last_color.fg else color.fg
    bg := if color.bg = COLOR_NONE then last_color.bg else color.bg }

/-- `tui_rect_t`: declared rectangle with a hidden NONE flag. -/
structure TuiRect where
  w : Int
  h : Int
  x : Int
  y : Int
  is_none : Bool
  deriving Repr, DecidableEq

/-- Window tree node (`tui_window_t` with its two variants
`tui_window_text_t` / `tui_window_parent_t`), restricted to the fields the
claims are about: the variant tag, the window name, the optional event
handler, and (for parents) the ordered child sequence.  The handler is the
C function pointer, modelled as a function from key to handled-flag. -/
inductive WTree where
  | text (name : String) (event : Option (Int → Bool)) : WTree
  | parent (name : String) (event : Option (Int → Bool)) (children : List WTree) : WTree

/-- `tui_menu_t`: name, owned top-level windows, optional handler. -/
structure Menu where
  name : String
  windows : List WTree
  event : Option (Int → Bool)

/-- `tui_t`: the root object, restricted to the fields the claims are
about (terminal size, owned menus and windows, active menu, focused
window, transient active color, root handler, running flag). -/
structure TuiT where
  w : Int
  h : Int
  menus : List Menu
  windows : List WTree
  menu : Option Menu
  window : Option WTree
  color : TuiColor
  event : Option (Int → Bool)
  is_running : Bool

/-- `tui_color_on`: resolves `color` against the active color, activates
the resulting ncurses pair (returned as the second component, the argument
of `attron`), and stores the resolved color as the new active color. -/
def tui_color_on (tui : TuiT) (color : TuiColor) : TuiT × Int :=
  let c := tui_color_inherit tui.color color
  ({ tui with color := c }, tui_ncurses_color_get c)

/-- `tui_color_off`: resolves `color` against the active color,
deactivates that pair (second component, the argument of `attroff`), and
resets the active color to `TUI_COLOR_NONE`. -/
def tui_color_off (tui : TuiT) (color : TuiColor) : TuiT × Int :=
  let c := tui_color_inherit tui.color color
  ({ tui with color := TUI_COLOR_NONE }, tui_ncurses_color_get c)

/-!
## Render pipeline (paint order)

`tui_window_render` / `tui_window_parent_render` / `tui_windows_render` /
`tui_render` are embedded as functions returning the sequence of window
names in the order the windows are rendered (the drawing side effects on
each window — erase, fill, border, glyphs — are per-window and do not
affect which window renders next).
-/

mutual

/-- `tui_window_render`: renders one window; a parent then renders its
children.  Result: names in paint order. -/
def tui_window_render : WTree → List String
  | .text name _ => [name]
  | .parent name _ children => name :: tui_window_children_render children

/-- The child loop of `tui_window_parent_render`:
`for (index = 0; index < child_count; index++) tui_window_render(children[index])`. -/
def tui_window_children_render : List WTree → List String
  | [] => []
  | w :: rest => tui_window_render w ++ tui_window_children_render rest

end

/-- The loop body of `tui_windows_render`, which iterates
`for (size_t index = count; index-- > 0;)`: renders `windows[k-1]`,
`windows[k-2]`, …, `windows[0]`. -/
def tui_windows_render_from (windows : List WTree) : Nat → List String
  | 0 => []
  | k + 1 => tui_window_render (windows.getD k (.text "" none)) ++ tui_windows_render_from windows k

/-- `tui_windows_render windows count` with `count = windows.length`. -/
def tui_windows_render (windows : List WTree) : List String :=
  tui_windows_render_from windows windows.length

/-- `tui_render`: renders the root's own windows, then — if a menu is
active — that menu's windows. -/
def tui_render (tui : TuiT) : List String :=
  tui_windows_render tui.windows ++
    match tui.menu with
    | some menu => tui_windows_render menu.windows
    | none => []

/-!
## Event dispatch
-/

/-- Which handler an event-dispatch step would invoke (used to observe
the invocation trace of `tui_event`). -/
inductive HandlerKind where
  | root
  | menu
  | window
  deriving Repr, DecidableEq

/-- `tui_event` (src/tui.h lines 555-558): the function body is empty, so
the state is returned unchanged and no handler is invoked.  The second
component is the trace of handler invocations (empty). -/
def tui_event (tui : TuiT) (_key : Int) : TuiT × List HandlerKind :=
  (tui, [])

/-!
## Destruction lifecycle

The C destroy operations take a pointer to the caller's handle
(`tui_window_t**` etc.).  A value `none` models a NULL pointer-to-handle,
`some none` a valid pointer holding a NULL handle, and `some (some x)` a
valid pointer to a live object.  Each operation returns the new contents
of the caller's pointer together with the names of the objects freed, in
the order they are freed (the observable state change).
-/

mutual

/-- Names freed by `tui_window_free` on a live window:
`tui_window_parent_free` frees all children first, then the window itself;
`tui_window_text_free` frees just the window. -/
def tui_window_freed : WTree → List String
  | .text name _ => [name]
  | .parent name _ children => tui_windows_freed children ++ [name]

/-- Names freed by `tui_windows_free`: each element in insertion order. -/
def tui_windows_freed : List WTree → List String
  | [] => []
  | w :: rest => tui_window_freed w ++ tui_windows_freed rest

end

/-- `tui_window_free`: NULL pointer or NULL handle is a no-op; otherwise
frees the window (children first for parents) and nulls the handle. -/
def tui_window_free : Option (Option WTree) → Option (Option WTree) × List String
  | none => (none, [])
  | some none => (some none, [])
  | some (some w) => (some none, tui_window_freed w)

/-- `tui_menu_free`: NULL pointer or NULL handle is a no-op; otherwise
frees the menu's windows, then the menu, and nulls the handle. -/
def tui_menu_free : Option (Option Menu) → Option (Option Menu) × List String
  | none => (none, [])
  | some none => (some none, [])
  | some (some m) => (some none, tui_windows_freed m.windows ++ [m.name])

/-- `tui_delete`: NULL pointer or NULL handle is a no-op; otherwise frees
every menu, then the top-level windows, then the tui, nulling the handle. -/
def tui_delete : Option (Option TuiT) → Option (Option TuiT) × List String
  | none => (none, [])
  | some none => (some none, [])
  | some (some t) =>
      (some none,
        (t.menus.map (fun m => tui_windows_freed m.windows ++ [m.name])).flatten ++
          tui_windows_freed t.windows ++ ["tui"])

/-!
## Text reflow

`tui_text_h_get`'s loop can move its index backwards (`index = space_index`),
so its embedding uses fuel; `none` means the fuel ran out and corresponds to
no C result.  All concrete evaluations below stay well within the fuel.
-/

/-- Loop state of `tui_text_h_get`: the C locals
`index`, `line_w`, `space_index`, `last_space_index`, `h`. -/
structure HState where
  index : Nat
  line_w : Int
  space_index : Nat
  last_space_index : Nat
  h : Int
  deriving Repr, DecidableEq

/-- The `for` loop of `tui_text_h_get`.  Each iteration reads
`letter = text[index]`, records `space_index` on a space, then either
starts a new line on `'\n'`, breaks at the last space when
`line_w >= max_w` (failing with `-1` when `space_index == last_space_index`),
or advances `line_w`. -/
def tui_text_h_loop (text : List Char) (max_w : Int) : Nat → HState → Option Int
  | 0, _ => none
  | fuel + 1, st =>
    if st.index < text.length then
      let letter := text.getD st.index ' '
      let space_index := if letter = ' ' then st.index else st.space_index
      if letter = '\n' then
        tui_text_h_loop text max_w fuel
          { st with space_index := space_index, line_w := 0, h := st.h + 1,
                    index := st.index + 1 }
      else if st.line_w ≥ max_w then
        if space_index = st.last_space_index then
          some (-1)
        else
          tui_text_h_loop text max_w fuel
            { st with space_index := space_index, line_w := 0, h := st.h + 1,
                      index := space_index + 1,
                      last_space_index := space_index }
      else
        tui_text_h_loop text max_w fuel
          { st with space_index := space_index, line_w := st.line_w + 1,
                    index := st.index + 1 }
    else
      some st.h

/-- `tui_text_h_get text max_w`: wrapped height of `text` at width
`max_w`; `some (-1)` is the C error return for an unwrappable word. -/
def tui_text_h_get (text : List Char) (max_w : Int) : Option Int :=
  tui_text_h_loop text max_w ((text.length + 2) * (text.length + 2))
    { index := 0, line_w := 0, space_index := 0, last_space_index := 0, h := 1 }

/-- The binary-search loop of `tui_text_w_get` over `[left, right]`,
carrying the best width found so far in `min_w`. -/
def tui_text_w_loop (text : List Char) (h : Int) : Nat → Int → Int → Int → Option Int
  | 0, _, _, _ => none
  | fuel + 1, left, right, min_w =>
    if left ≤ right then
      let mid := (left + right) / 2
      match tui_text_h_get text mid with
      | none => none
      | some curr_h =>
        if curr_h = -1 then
          tui_text_w_loop text h fuel (mid + 1) right min_w
        else if curr_h > h then
          tui_text_w_loop text h fuel (mid + 1) right min_w
        else
          tui_text_w_loop text h fuel left (mid - 1) mid
    else
      some min_w

/-- `tui_text_w_get text h`: minimal width at which `text` wraps into at
most `h` lines, defaulting to the full text length. -/
def tui_text_w_get (text : List Char) (h : Int) : Option Int :=
  tui_text_w_loop text h (text.length + 2) 1 (text.length : Int) (text.length : Int)

/-- Loop state of `tui_text_ws_get`: the C locals `index`, `line_index`,
`line_w`, `space_index` and the array `ws`, plus verification-only
counters that record how many characters each skipping branch consumed:
`lead` spaces skipped at line starts, `brk` spaces dropped at forced
breaks, `nl` newline characters.  The counters do not influence control
flow or `ws`; projecting them away leaves exactly the C loop state. -/
structure WsState where
  index : Nat
  line_index : Nat
  line_w : Int
  space_index : Nat
  ws : List Int
  lead : Nat
  brk : Nat
  nl : Nat
  deriving Repr, DecidableEq

/-- One C iteration of the `tui_text_ws_get` loop, minus the trailing
`if (index + 1 == length) ws[line_index] = line_w;` store.  Branches:
skip a space at line start; on `'\n'` store the line width; on
`line_w >= max_w` store the width minus the trailing partial word and
rewind to the last space; otherwise advance `line_w`. -/
def tui_text_ws_step (text : List Char) (max_w : Int) (st : WsState) : WsState :=
  let letter := text.getD st.index ' '
  let space_index := if letter = ' ' then st.index else st.space_index
  if letter = ' ' ∧ st.line_w = 0 then
    { st with space_index := space_index, lead := st.lead + 1 }
  else if letter = '\n' then
    { st with space_index := space_index,
              ws := st.ws.set st.line_index st.line_w,
              line_index := st.line_index + 1, line_w := 0, nl := st.nl + 1 }
  else if st.line_w ≥ max_w then
    { st with space_index := space_index,
              ws := st.ws.set st.line_index
                      (st.line_w - ((st.index : Int) - (space_index : Int))),
              line_index := st.line_index + 1, line_w := 0,
              index := space_index, brk := st.brk + 1 }
  else
    { st with space_index := space_index, line_w := st.line_w + 1 }

/-- The `for` loop of `tui_text_ws_get`
(`for (index = 0; index < length && line_index < h; index++)`), including
the final `if (index + 1 == length) ws[line_index] = line_w;` store.  The
C stores into `ws` unguarded; a store past the end of the array is
undefined behaviour and is embedded as `none`. -/
def tui_text_ws_loop (text : List Char) (max_w h : Int) : Nat → WsState → Option WsState
  | 0, _ => none
  | fuel + 1, st =>
    if st.index < text.length ∧ (st.line_index : Int) < h then
      let st := tui_text_ws_step text max_w st
      if st.index + 1 = text.length then
        if st.line_index < st.ws.length then
          tui_text_ws_loop text max_w h fuel
            { st with ws := st.ws.set st.line_index st.line_w, index := st.index + 1 }
        else
          none
      else
        tui_text_ws_loop text max_w h fuel { st with index := st.index + 1 }
    else
      some st

/-- `tui_text_ws_get ws text h`: derives `max_w = tui_text_w_get text h`
and fills the caller's `int ws[h]` (modelled zero-initialised) with the
per-line widths.  Returns the full final loop state. -/
def tui_text_ws_get (text : List Char) (h : Int) : Option WsState :=
  match tui_text_w_get text h with
  | none => none
  | some max_w =>
      tui_text_ws_loop text max_w h ((text.length + 2) * (h.toNat + 2))
        { index := 0, line_index := 0, line_w := 0, space_index := 0,
          ws := List.replicate h.toNat 0, lead := 0, brk := 0, nl := 0 }

/-- The inner `while (index < length && string[index] != 'm') index++;`
escape-skipping loop shared by `tui_text_render` and `tui_text_extract`:
the index of the next `'m'` at or after `i`, or the string length.
Fuel-indexed; every call site passes `string.length + 1`, which covers
the whole scan. -/
def tui_skip_to_m (string : List Char) : Nat → Nat → Nat
  | 0, i => i
  | fuel + 1, i =>
    if i < string.length then
      if string.getD i ' ' = 'm' then i else tui_skip_to_m string fuel (i + 1)
    else
      i

/-- The loop of `tui_text_extract`: copies every character, skipping each
escape sequence `'\033' … 'm'` wholesale. -/
def tui_text_extract_loop (string : List Char) : Nat → Nat → List Char
  | 0, _ => []
  | fuel + 1, index =>
    if index < string.length then
      let letter := string.getD index ' '
      if letter = '\x1b' then
        tui_text_extract_loop string fuel (tui_skip_to_m string (string.length + 1) index + 1)
      else
        letter :: tui_text_extract_loop string fuel (index + 1)
    else
      []

/-- `tui_text_extract string`: the plain text of `string`, ANSI escape
sequences left out. -/
def tui_text_extract (string : List Char) : List Char :=
  tui_text_extract_loop string (string.length + 1) 0

/-- Loop state of `tui_text_render`: the C locals `index`, `line_index`,
`line_w`, `y`. -/
structure RState where
  index : Nat
  line_index : Nat
  line_w : Int
  y : Int
  deriving Repr, DecidableEq

/-- The `for` loop of `tui_text_render` over the display string.  On
`'\033'` the inner `while` advances `index` to the next `'m'`; the
following `if` chain is not an `else` of that test, so it still runs with
`letter = '\033'`.  Reads of `ws[line_index]` past the end of the C
array are undefined behaviour, embedded as `none`. -/
def tui_text_render_loop (string : List Char) (ws : List Int) (rect : TuiRect)
    (pos h : Int) : Nat → RState → Option (List (Int × Int × Char))
  | 0, _ => none
  | fuel + 1, st =>
    if st.index < string.length then
      let letter := string.getD st.index ' '
      let index := if letter = '\x1b' then tui_skip_to_m string (string.length + 1) st.index else st.index
      if letter = ' ' ∧ st.line_w = 0 then
        tui_text_render_loop string ws rect pos h fuel { st with index := index + 1 }
      else if _hb : st.line_index < ws.length then
        if st.line_w ≥ ws.getD st.line_index 0 then
          tui_text_render_loop string ws rect pos h fuel
            { st with line_index := st.line_index + 1, line_w := 0,
                      y := st.y + 1, index := index + 1 }
        else
          let x_shift := (rect.w - ws.getD st.line_index 0) / 2
          let y_shift := pos * (rect.h - h) / 2
          match tui_text_render_loop string ws rect pos h fuel
              { st with line_w := st.line_w + 1, index := index + 1 } with
          | none => none
          | some glyphs =>
              some ((rect.y + y_shift + st.y, rect.x + x_shift + st.line_w, letter) :: glyphs)
      else
        none
    else
      some []

/-- `tui_text_render window`: computes `h = tui_text_h_get(text, rect.w)`
and the line widths, then walks the display string emitting glyphs.  A
negative `h` makes the C VLA `int ws[h]` undefined, embedded as `none`. -/
def tui_text_render (string text : List Char) (rect : TuiRect) (pos : Int) :
    Option (List (Int × Int × Char)) :=
  match tui_text_h_get text rect.w with
  | none => none
  | some h =>
    if h < 0 then none
    else
      match tui_text_ws_get text h with
      | none => none
      | some st =>
          tui_text_render_loop string st.ws rect pos h (string.length + 1)
            { index := 0, line_index := 0, line_w := 0, y := 0 }

/-- `tui_window_text_render` (drawing part): recomputes the plain-text
cache `text = tui_text_extract(string)` and runs `tui_text_render`. -/
def tui_window_text_render (string : List Char) (rect : TuiRect) (pos : Int) :
    Option (List (Int × Int × Char)) :=
  tui_text_render string (tui_text_extract string) rect pos

/-- Modelled from the spec: the length of the longest space-free word of
a text, where a word is a maximal run of characters that are neither a
space nor a newline (the two break opportunities of the wrap rule in
§4.2).  Used to state when "a single word exceeds the width". -/
def tui_max_word_len : List Char → Nat → Nat → Nat
  | [], cur, best => max cur best
  | c :: rest, cur, best =>
      if c = ' ' ∨ c = '\n' then tui_max_word_len rest 0 (max cur best)
      else tui_max_word_len rest (cur + 1) best

/-!
## Concrete fixtures used by witnesses and counterexamples
-/

/-- A root whose active color is `{2, 3}` (e.g. green on yellow). -/
def exTuiColor : TuiT :=
  { w := 80, h := 24, menus := [], windows := [], menu := none, window := none,
    color := ⟨2, 3⟩, event := none, is_running := true }

/-- A menu with two windows, for the paint-order fixture. -/
def exMenuOrder : Menu :=
  ⟨"menu7", [.text "m1" none, .text "m2" none], none⟩

/-- A root owning a text window and a parent with two children, with
`exMenuOrder` active. -/
def exTuiOrder : TuiT :=
  { w := 80, h := 24, menus := [exMenuOrder],
    windows := [.text "w1" none, .parent "p" none [.text "c1" none, .text "c2" none]],
    menu := some exMenuOrder, window := none,
    color := TUI_COLOR_NONE, event := none, is_running := true }

/-- A root carrying a root handler, an active menu with a handler, and a
focused window with a handler. -/
def exTuiEvent : TuiT :=
  { w := 80, h := 24, menus := [], windows := [],
    menu := some ⟨"menu", [], some (fun _ => true)⟩,
    window := some (.text "focus" (some (fun _ => true))),
    color := TUI_COLOR_NONE, event := some (fun _ => false), is_running := true }

/-- The final `tui_text_ws_get` state for text `"a\nb"` at height 2. -/
def exWsState : WsState :=
  ⟨3, 1, 1, 0, [1, 1], 0, 0, 1⟩

/-!
## Helper lemmas
-/

/-- Setting an in-range entry changes a list's sum by the difference. -/
theorem sum_set_int (l : List Int) (i : Nat) (x : Int) (hi : i < l.length) :
    (l.set i x).sum = l.sum + x - l.getD i 0 := by
  induction l generalizing i with
  | nil => simp at hi
  | cons a t ih =>
    cases i with
    | zero => simp [List.set]; ring
    | succ j =>
      simp only [List.set, List.sum_cons, List.getD_cons_succ]
      rw [ih j (by simpa using hi)]
      ring

/-- Setting one entry leaves the other entries unchanged. -/
theorem getD_set_ne (l : List Int) (i j : Nat) (x : Int) (hij : i ≠ j) :
    (l.set i x).getD j 0 = l.getD j 0 := by
  induction l generalizing i j with
  | nil => simp [List.set]
  | cons a t ih =>
    cases i with
    | zero =>
      cases j with
      | zero => exact absurd rfl hij
      | succ k => simp [List.set]
    | succ i' =>
      cases j with
      | zero => simp [List.set]
      | succ k => simpa [List.set] using ih i' k (by omega)

/-- Every entry of a zero-replicate list is zero. -/
theorem getD_replicate_zero (n j : Nat) : (List.replicate n (0 : Int)).getD j 0 = 0 := by
  induction n generalizing j with
  | zero => simp
  | succ m ih =>
    cases j with
    | zero => simp [List.replicate]
    | succ k => simp only [List.replicate, List.getD_cons_succ]; exact ih k

/-- The height counter of `tui_text_h_loop` never decreases: any
non-error result is at least the starting `h`. -/
theorem tui_text_h_loop_ge (text : List Char) (max_w : Int) :
    ∀ (fuel : Nat) (st : HState) (r : Int),
      tui_text_h_loop text max_w fuel st = some r → r ≠ -1 → st.h ≤ r := by
  intro fuel
  induction fuel with
  | zero => intro st r hrun; simp [tui_text_h_loop] at hrun
  | succ n ih =>
    intro st r hrun hr
    rw [tui_text_h_loop] at hrun
    by_cases hidx : st.index < text.length
    · rw [if_pos hidx] at hrun
      by_cases hnl : text.getD st.index ' ' = '\n'
      · rw [if_pos hnl] at hrun
        have := ih _ _ hrun hr
        simp only at this
        omega
      · rw [if_neg hnl] at hrun
        by_cases hov : st.line_w ≥ max_w
        · rw [if_pos hov] at hrun
          by_cases heq : (if text.getD st.index ' ' = ' ' then st.index else st.space_index) =
              st.last_space_index
          · rw [if_pos heq] at hrun
            exact absurd (by simpa using hrun.symm) hr
          · rw [if_neg heq] at hrun
            have := ih _ _ hrun hr
            simp only at this
            omega
        · rw [if_neg hov] at hrun
          have := ih _ _ hrun hr
          simp only at this
          omega
    · rw [if_neg hidx] at hrun
      have : st.h = r := by simpa using hrun
      omega

/-- `tui_window_children_render` is the forward flattening of the child
renders. -/
theorem tui_window_children_render_eq (children : List WTree) :
    tui_window_children_render children = (children.map tui_window_render).flatten := by
  induction children with
  | nil => simp [tui_window_children_render]
  | cons w rest ih => simp [tui_window_children_render, ih]

/-- The descending index loop of `tui_windows_render` renders the first
`k` windows in reverse order. -/
theorem tui_windows_render_from_eq (windows : List WTree) :
    ∀ (k : Nat), k ≤ windows.length →
      tui_windows_render_from windows k =
        (((windows.take k).reverse).map tui_window_render).flatten := by
  intro k
  induction k with
  | zero => intro _; simp [tui_windows_render_from]
  | succ n ih =>
    intro hk
    have hn : n < windows.length := by omega
    rw [tui_windows_render_from, ih (by omega)]
    have htake : windows.take (n + 1) = windows.take n ++ [windows[n]] := by
      rw [List.take_succ]
      simp [List.getElem?_eq_getElem hn]
    have hg : windows.getD n (.text "" none) = windows[n] := by
      simp [List.getD_eq_getElem?_getD, List.getElem?_eq_getElem hn]
    rw [htake, hg]
    simp only [List.reverse_append, List.reverse_cons, List.reverse_nil, List.nil_append,
      List.singleton_append, List.map_cons, List.flatten_cons]

/-- `tui_windows_render` renders in reverse insertion order. -/
theorem tui_windows_render_eq (windows : List WTree) :
    tui_windows_render windows = ((windows.reverse).map tui_window_render).flatten := by
  rw [tui_windows_render, tui_windows_render_from_eq windows windows.length (le_refl _)]
  simp

/-- Loop-head invariant of the `tui_text_ws_get` scan: the array has the
declared size, the recorded space is not ahead of the cursor, all slots
from `line_index` on are still untouched, and the accounting equation —
stored widths plus the open line plus every skipped character equals the
cursor position. -/
def WsOk (h : Int) (st : WsState) : Prop :=
  st.ws.length = h.toNat ∧
  st.space_index ≤ st.index ∧
  (∀ j, st.line_index ≤ j → st.ws.getD j 0 = 0) ∧
  st.ws.sum + st.line_w + st.lead + st.brk + st.nl = st.index

/-- Accounting equation of a finished scan: stored widths plus skipped
characters equal the text length. -/
def WsDone (text : List Char) (st : WsState) : Prop :=
  st.ws.sum + st.lead + st.brk + st.nl = text.length

/-- One `tui_text_ws_step` preserves the invariant, with the accounting
equation advanced to the next cursor position. -/
theorem tui_text_ws_step_ok (text : List Char) (max_w h : Int) (st : WsState)
    (hok : WsOk h st) (hidx : st.index < text.length)
    (hline : (st.line_index : Int) < h) :
    (tui_text_ws_step text max_w st).ws.length = h.toNat ∧
    (tui_text_ws_step text max_w st).space_index ≤ (tui_text_ws_step text max_w st).index ∧
    (tui_text_ws_step text max_w st).index < text.length ∧
    (∀ j, (tui_text_ws_step text max_w st).line_index ≤ j →
      (tui_text_ws_step text max_w st).ws.getD j 0 = 0) ∧
    (tui_text_ws_step text max_w st).ws.sum + (tui_text_ws_step text max_w st).line_w +
      (tui_text_ws_step text max_w st).lead + (tui_text_ws_step text max_w st).brk +
      (tui_text_ws_step text max_w st).nl = (tui_text_ws_step text max_w st).index + 1 := by
  obtain ⟨hlen, hsp, hzero, hsum⟩ := hok
  have hlib : st.line_index < st.ws.length := by omega
  have hslot : st.ws.getD st.line_index 0 = 0 := hzero st.line_index (le_refl _)
  rw [tui_text_ws_step]
  by_cases hspc : text.getD st.index ' ' = ' '
  · by_cases hlw : st.line_w = 0
    · rw [if_pos ⟨hspc, hlw⟩, if_pos hspc]
      refine ⟨hlen, le_refl _, hidx, hzero, ?_⟩
      simp only
      push_cast
      omega
    · rw [if_neg (fun hc => hlw hc.2)]
      rw [if_neg (show ¬(text.getD st.index ' ' = '\n') by rw [hspc]; decide)]
      by_cases hov : st.line_w ≥ max_w
      · rw [if_pos hov, if_pos hspc]
        refine ⟨by simpa using hlen, le_refl _, hidx, ?_, ?_⟩
        · intro j hj
          simp only at hj ⊢
          rw [getD_set_ne _ _ _ _ (by omega)]
          exact hzero j (by omega)
        · simp only
          rw [sum_set_int _ _ _ hlib, hslot]
          push_cast
          omega
      · rw [if_neg hov, if_pos hspc]
        refine ⟨hlen, le_refl _, hidx, hzero, ?_⟩
        simp only
        omega
  · rw [if_neg (fun hc => hspc hc.1)]
    by_cases hnl : text.getD st.index ' ' = '\n'
    · rw [if_pos hnl, if_neg hspc]
      refine ⟨by simpa using hlen, by simp only; omega, hidx, ?_, ?_⟩
      · intro j hj
        simp only at hj ⊢
        rw [getD_set_ne _ _ _ _ (by omega)]
        exact hzero j (by omega)
      · simp only
        rw [sum_set_int _ _ _ hlib, hslot]
        push_cast
        omega
    · rw [if_neg hnl]
      by_cases hov : st.line_w ≥ max_w
      · rw [if_pos hov, if_neg hspc]
        refine ⟨by simpa using hlen, le_refl _, by simp only; omega, ?_, ?_⟩
        · intro j hj
          simp only at hj ⊢
          rw [getD_set_ne _ _ _ _ (by omega)]
          exact hzero j (by omega)
        · simp only
          rw [sum_set_int _ _ _ hlib, hslot]
          push_cast
          omega
      · rw [if_neg hov, if_neg hspc]
        refine ⟨hlen, by simp only; omega, hidx, hzero, ?_⟩
        simp only
        omega

/-- Fuel-indexed induction for the `tui_text_ws_get` scan: started from
an invariant-satisfying state (or an already-finished one), a run that
consumes the whole text ends in a state satisfying the accounting
equation. -/
theorem tui_text_ws_loop_done (text : List Char) (max_w h : Int) :
    ∀ (fuel : Nat) (st st' : WsState),
      tui_text_ws_loop text max_w h fuel st = some st' →
      (st.index < text.length → WsOk h st) →
      (text.length ≤ st.index → WsDone text st) →
      text.length ≤ st'.index → WsDone text st' := by
  intro fuel
  induction fuel with
  | zero => intro st st' hrun; simp [tui_text_ws_loop] at hrun
  | succ n ih =>
    intro st st' hrun hok hdone hfin
    rw [tui_text_ws_loop] at hrun
    by_cases hg : st.index < text.length ∧ (st.line_index : Int) < h
    · rw [if_pos hg] at hrun
      obtain ⟨hlen2, hsp2, hidx2, hzero2, hsum2⟩ :=
        tui_text_ws_step_ok text max_w h st (hok hg.1) hg.1 hg.2
      by_cases hlast : (tui_text_ws_step text max_w st).index + 1 = text.length
      · rw [if_pos hlast] at hrun
        by_cases hb : (tui_text_ws_step text max_w st).line_index <
            (tui_text_ws_step text max_w st).ws.length
        · rw [if_pos hb] at hrun
          refine ih _ _ hrun (fun hlt => ?_) (fun _ => ?_) hfin
          · exfalso
            simp only at hlt
            omega
          · unfold WsDone
            simp only
            rw [sum_set_int _ _ _ hb, hzero2 _ (le_refl _)]
            omega
        · rw [if_neg hb] at hrun
          exact absurd hrun (by simp)
      · rw [if_neg hlast] at hrun
        refine ih _ _ hrun (fun _ => ?_) (fun hge => ?_) hfin
        · refine ⟨by simpa using hlen2, by simp only; omega, ?_, ?_⟩
          · intro j hj
            simp only at hj ⊢
            exact hzero2 j hj
          · simp only
            push_cast
            omega
        · exfalso
          simp only at hge
          omega
    · rw [if_neg hg] at hrun
      have hst : st = st' := by simpa using hrun
      subst hst
      exact hdone hfin

/-!
## Claims
-/

/-- C1.  Color resolution is per-channel substitution: for every active
color `A` and declared color `D`, `tui_color_inherit A D` keeps each
channel of `D` unless it is the `COLOR_NONE` sentinel, in which case the
channel of `A` is substituted; in particular `resolve(A, {none, none}) = A`
and `resolve(A, D) = D` when both channels of `D` are concrete. -/
theorem c1_color_inherit (A D : TuiColor) :
    (D.fg = COLOR_NONE → (tui_color_inherit A D).fg = A.fg) ∧
    (D.fg ≠ COLOR_NONE → (tui_color_inherit A D).fg = D.fg) ∧
    (D.bg = COLOR_NONE → (tui_color_inherit A D).bg = A.bg) ∧
    (D.bg ≠ COLOR_NONE → (tui_color_inherit A D).bg = D.bg) ∧
    tui_color_inherit A TUI_COLOR_NONE = A ∧
    (D.fg ≠ COLOR_NONE → D.bg ≠ COLOR_NONE → tui_color_inherit A D = D) := by
  refine ⟨fun h => ?_, fun h => ?_, fun h => ?_, fun h => ?_, ?_, fun h1 h2 => ?_⟩
  · simp [tui_color_inherit, h]
  · simp [tui_color_inherit, h]
  · simp [tui_color_inherit, h]
  · simp [tui_color_inherit, h]
  · simp [tui_color_inherit, TUI_COLOR_NONE]
  · simp [tui_color_inherit, h1, h2]

/-- Witness for C1 at the concrete colors of spec §8's example: declared
`{fg: none, bg: 5}` inside active `{2, 3}` resolves to foreground 2 and
background 5. -/
theorem c1_color_inherit_witness :
    ((⟨-1, 5⟩ : TuiColor).fg = COLOR_NONE ∧
      (tui_color_inherit ⟨2, 3⟩ ⟨-1, 5⟩).fg = (⟨2, 3⟩ : TuiColor).fg) ∧
    ((⟨-1, 5⟩ : TuiColor).bg ≠ COLOR_NONE ∧
      (tui_color_inherit ⟨2, 3⟩ ⟨-1, 5⟩).bg = (⟨-1, 5⟩ : TuiColor).bg) ∧
    tui_color_inherit ⟨2, 3⟩ TUI_COLOR_NONE = (⟨2, 3⟩ : TuiColor) :=
  ⟨⟨by decide, (c1_color_inherit ⟨2, 3⟩ ⟨-1, 5⟩).1 (by decide)⟩,
   ⟨by decide, (c1_color_inherit ⟨2, 3⟩ ⟨-1, 5⟩).2.2.2.1 (by decide)⟩,
   (c1_color_inherit ⟨2, 3⟩ ⟨-1, 5⟩).2.2.2.2.1⟩

/-- C2 counterexample.  With active color `{2, 3}`, running
`tui_color_on` and then `tui_color_off` with `{1, none}` leaves the
active color `TUI_COLOR_NONE`, not the previous `{2, 3}`: the round trip
is not a restore. -/
theorem c2_color_off_counterexample :
    ((tui_color_off (tui_color_on exTuiColor ⟨1, -1⟩).1 ⟨1, -1⟩).1).color ≠
      exTuiColor.color := by
  decide

/-- C2 (amended).  `tui_color_off` after `tui_color_on` always resets the
active color to the `TUI_COLOR_NONE` sentinel — a global reset, not a
stack-discipline restore; the previous active color is recovered exactly
when it was the sentinel itself. -/
theorem c2_color_off_resets (tui : TuiT) (color : TuiColor) :
    ((tui_color_off (tui_color_on tui color).1 color).1).color = TUI_COLOR_NONE ∧
    (((tui_color_off (tui_color_on tui color).1 color).1).color = tui.color ↔
      tui.color = TUI_COLOR_NONE) := by
  refine ⟨rfl, ?_⟩
  show TUI_COLOR_NONE = tui.color ↔ tui.color = TUI_COLOR_NONE
  exact eq_comm

/-- C3.  `tui_text_h_get " a" 1` returns the error value `-1` although no
space-free word of `" a"` exceeds width 1 (the text wraps as the lines
`""` and `"a"`): the failure test `space_index == last_space_index`
conflates a space seen at index 0 with no space seen at all, contradicting
the code's own comment `// Current word cannot be wrapped`. -/
theorem c3_unwrappable_bug :
    tui_text_h_get [' ', 'a'] 1 = some (-1) ∧
    tui_max_word_len [' ', 'a'] 0 0 = 1 ∧
    tui_text_h_get ['x', ' ', 'a'] 1 = some 2 := by
  refine ⟨by decide, by decide, by decide⟩

/-- C4.  At `s = " abc"` the longest space-free word has length 3, yet
`tui_text_h_get s 3 = -1` while `tui_text_h_get s 4 = 1`: shrinking the
width from 4 to 3 does not leave the height non-decreasing (it turns into
the error value), and the solver applied to that result returns
`tui_text_w_get s (-1) = 4 > 3`, violating
`min_width_for_height(s, wrap_height_for_width(s, w)) ≤ w`. -/
theorem c4_monotonicity_bug :
    tui_max_word_len [' ', 'a', 'b', 'c'] 0 0 = 3 ∧
    tui_text_h_get [' ', 'a', 'b', 'c'] 4 = some 1 ∧
    tui_text_h_get [' ', 'a', 'b', 'c'] 3 = some (-1) ∧
    tui_text_w_get [' ', 'a', 'b', 'c'] (-1) = some 4 := by
  refine ⟨by decide, by decide, by decide, by decide⟩

/-- C5 counterexample.  The text `"a\nb"` wraps successfully to height 2
(e.g. at width 1), no spaces are collapsed by wrapping (`brk = 0`) and no
leading spaces are skipped (`lead = 0`), yet the width table sums to 2,
not to the plain-text length 3: the newline character is also excluded
from the total. -/
theorem c5_width_sum_counterexample :
    tui_text_h_get ['a', '\n', 'b'] 1 = some 2 ∧
    tui_text_ws_get ['a', '\n', 'b'] 2 = some exWsState ∧
    exWsState.brk = 0 ∧ exWsState.lead = 0 ∧
    exWsState.ws.sum ≠ ((['a', '\n', 'b'].length : Int) - 0) := by
  refine ⟨by decide, by decide, by decide, by decide, by decide⟩

/-- C5 (amended).  Whenever the `tui_text_ws_get` scan consumes the whole
text (as it does at every successfully wrapped height), the per-line
width table sums to the plain-text length minus the spaces dropped at
forced wrap breaks, minus the spaces skipped at line starts, and minus
the newline characters — no other character is dropped from the total. -/
theorem c5_width_sum (text : List Char) (h : Int) (st : WsState)
    (hrun : tui_text_ws_get text h = some st)
    (hfin : text.length ≤ st.index) :
    st.ws.sum = (text.length : Int) - st.lead - st.brk - st.nl := by
  rw [tui_text_ws_get] at hrun
  rcases hw : tui_text_w_get text h with _ | max_w
  · rw [hw] at hrun; exact absurd hrun (by simp)
  · rw [hw] at hrun
    have hdone := tui_text_ws_loop_done text max_w h _ _ _ hrun ?_ ?_ hfin
    · unfold WsDone at hdone
      omega
    · intro _
      refine ⟨by simp, by simp, fun j _ => getD_replicate_zero _ _, ?_⟩
      simp [List.sum_replicate]
    · intro hlen
      unfold WsDone
      simp only at hlen
      simp only [List.sum_replicate, smul_zero]
      push_cast
      omega

/-- Witness for C5 (amended) at text `"a\nb"`, height 2: the scan ends at
index 3 with widths `[1, 1]`, and `1 + 1 = 3 - 0 - 0 - 1`. -/
theorem c5_width_sum_witness :
    tui_text_ws_get ['a', '\n', 'b'] 2 = some exWsState ∧
    ['a', '\n', 'b'].length ≤ exWsState.index ∧
    exWsState.ws.sum = ((['a', '\n', 'b'].length : Int) - exWsState.lead -
      exWsState.brk - exWsState.nl) :=
  ⟨by decide, by decide, c5_width_sum ['a', '\n', 'b'] 2 exWsState (by decide) (by decide)⟩

/-- C6.  For the display string `"\x1b[1ma"` (plain text `"a"`) in a
10×5 rect, the render loop emits exactly one glyph: the escape character
`'\x1b'` itself, at the column the first real glyph should occupy — the
escape-skipping `if` is not joined to the drawing chain by an `else`, so
the escape sequence advances the line-width cursor and emits a glyph,
and the actual text `"a"` is never drawn. -/
theorem c6_escape_render_bug :
    tui_text_extract ['\x1b', '[', '1', 'm', 'a'] = ['a'] ∧
    tui_window_text_render ['\x1b', '[', '1', 'm', 'a'] ⟨10, 5, 0, 0, false⟩ 0 =
      some [(0, 4, '\x1b')] := by
  refine ⟨by decide, by decide⟩

/-- C7.  `tui_render` paints the root's own top-level windows in reverse
insertion order, then — exactly when a menu is active — the menu's
top-level windows in reverse insertion order, while a parent container
paints its children in forward insertion order. -/
theorem c7_paint_order (tui : TuiT) :
    (tui.menu = none →
      tui_render tui = ((tui.windows.reverse).map tui_window_render).flatten) ∧
    (∀ menu, tui.menu = some menu →
      tui_render tui = ((tui.windows.reverse).map tui_window_render).flatten ++
        ((menu.windows.reverse).map tui_window_render).flatten) ∧
    (∀ name event children,
      tui_window_render (.parent name event children) =
        name :: (children.map tui_window_render).flatten) := by
  refine ⟨fun hm => ?_, fun menu hm => ?_, fun name event children => ?_⟩
  · rw [tui_render, hm, tui_windows_render_eq]
    simp
  · rw [tui_render, hm]
    simp only [tui_windows_render_eq]
  · rw [tui_window_render, tui_window_children_render_eq]

/-- Witness for C7 on a root owning `[w1, parent p [c1, c2]]` with active
menu windows `[m1, m2]`: paint order is `p, c1, c2, w1`, then `m2, m1`. -/
theorem c7_paint_order_witness :
    exTuiOrder.menu = some exMenuOrder ∧
    tui_render exTuiOrder = ["p", "c1", "c2", "w1", "m2", "m1"] ∧
    tui_window_render (.parent "p" none [.text "c1" none, .text "c2" none]) =
      "p" :: (([WTree.text "c1" none, WTree.text "c2" none].map tui_window_render).flatten) := by
  refine ⟨rfl, ?_, (c7_paint_order exTuiOrder).2.2 "p" none [.text "c1" none, .text "c2" none]⟩
  rw [(c7_paint_order exTuiOrder).2.1 exMenuOrder rfl]
  rfl

/-- C8 counterexample.  On a root with a root handler, an active menu
with a handler, and a focused window with a handler, `tui_event` invokes
no handler at all: its trace is empty, so in particular it does not
first consult the root's handler. -/
theorem c8_event_counterexample :
    exTuiEvent.event.isSome = true ∧
    exTuiEvent.menu.isSome = true ∧
    exTuiEvent.window.isSome = true ∧
    (tui_event exTuiEvent 10).2 = [] ∧
    (tui_event exTuiEvent 10).2.head? ≠ some HandlerKind.root := by
  refine ⟨rfl, rfl, rfl, rfl, by simp [tui_event]⟩

/-- C8 (amended).  `tui_event` is an empty function: for every root and
key it returns the root unchanged and invokes no handler — the
root → menu → focused-window dispatch chain is not implemented. -/
theorem c8_event_noop (tui : TuiT) (key : Int) :
    tui_event tui key = (tui, []) :=
  rfl

/-- C9.  Every destroy operation (`tui_window_free`, `tui_menu_free`,
`tui_delete`) nulls the caller's handle, and calling it again with a
NULL pointer or with the already-nulled handle is a no-op that frees
nothing and changes nothing. -/
theorem c9_destroy_nulls (w : WTree) (m : Menu) (t : TuiT) :
    (tui_window_free (some (some w))).1 = some none ∧
    tui_window_free none = (none, []) ∧
    tui_window_free (some none) = (some none, []) ∧
    tui_window_free ((tui_window_free (some (some w))).1) = (some none, []) ∧
    (tui_menu_free (some (some m))).1 = some none ∧
    tui_menu_free none = (none, []) ∧
    tui_menu_free (some none) = (some none, []) ∧
    tui_menu_free ((tui_menu_free (some (some m))).1) = (some none, []) ∧
    (tui_delete (some (some t))).1 = some none ∧
    tui_delete none = (none, []) ∧
    tui_delete (some none) = (some none, []) ∧
    tui_delete ((tui_delete (some (some t))).1) = (some none, []) :=
  ⟨rfl, rfl, rfl, rfl, rfl, rfl, rfl, rfl, rfl, rfl, rfl, rfl⟩

/-- C10.  Whenever `tui_text_h_get` succeeds (returns a value other than
the `-1` error) the height is at least 1, and the empty string wraps to
height exactly 1 at every width. -/
theorem c10_height_positive (text : List Char) (max_w : Int) :
    (∀ r, tui_text_h_get text max_w = some r → r ≠ -1 → 1 ≤ r) ∧
    tui_text_h_get [] max_w = some 1 := by
  constructor
  · intro r hrun hr
    exact tui_text_h_loop_ge text max_w _ _ r hrun hr
  · rfl

/-- Witness for C10: `"hi"` at width 5 wraps to height 1 ≥ 1, and the
empty string at width 5 wraps to height 1. -/
theorem c10_height_positive_witness :
    tui_text_h_get ['h', 'i'] 5 = some 1 ∧
    (1 : Int) ≤ 1 ∧
    tui_text_h_get [] 5 = some 1 :=
  ⟨by decide, (c10_height_positive ['h', 'i'] 5).1 1 (by decide) (by decide),
   (c10_height_positive [] 5).2⟩

end Tui
